import Mathlib

set_option autoImplicit false

/-
Verification of the taal conversational-coaching backend core:
the generic record-access tools and conversation loop of
backend/app/agents/langgraph_router.py and the memory consolidation
engine of backend/app/services/memory_service.py, embedded shallowly.
Python strings are Lean Strings; Python dicts are insertion-ordered
association lists; SQLAlchemy rows are explicit structures; the
database session is explicit state (a list of rows in insertion order,
which models `created_at` ordering).  External collaborators (the
OpenAI embedding model, the SQL cosine-distance operator, stdlib
parsers for Decimal/date/datetime/UUID) are parameters of the
definitions that use them.
-/

namespace Taal

/-- ASCII lower-casing of one character, modelling Python str.lower
for the ASCII range (the repository only lowercases ASCII data:
table keys and the section headers of memory summaries). -/
def asciiLower (c : Char) : Char :=
  if 'A' ≤ c ∧ c ≤ 'Z' then Char.ofNat (c.toNat + 32) else c

/-- ASCII upper-casing of one character, modelling Python str.upper. -/
def asciiUpper (c : Char) : Char :=
  if 'a' ≤ c ∧ c ≤ 'z' then Char.ofNat (c.toNat - 32) else c

/-- Whitespace recognized by Python str.strip and str.splitlines
(space, tab, newline, carriage return, vertical tab, form feed). -/
def isPySpace (c : Char) : Bool :=
  c = ' ' || c = '\t' || c = '\n' || c = '\r' || c = Char.ofNat 11 || c = Char.ofNat 12

/-- Strip leading and trailing Python whitespace from a character list. -/
def pyStripList (cs : List Char) : List Char :=
  ((cs.dropWhile isPySpace).reverse.dropWhile isPySpace).reverse

/-- Model of Python str.strip(). -/
def pyStrip (s : String) : String := ⟨pyStripList s.data⟩

/-- Model of Python str.lower() (ASCII range). -/
def pyLower (s : String) : String := ⟨s.data.map asciiLower⟩

/-- Model of Python str.upper() (ASCII range). -/
def pyUpper (s : String) : String := ⟨s.data.map asciiUpper⟩

/-- Split a character list at line ends, models Python str.splitlines:
every newline terminates a line (possibly empty); characters after the
last newline form a final line only when nonempty. -/
def splitLinesAux : List Char → List Char → List (List Char)
  | [], acc => if acc = [] then [] else [acc.reverse]
  | '\r' :: '\n' :: rest, acc => acc.reverse :: splitLinesAux rest []
  | '\n' :: rest, acc => acc.reverse :: splitLinesAux rest []
  | '\r' :: rest, acc => acc.reverse :: splitLinesAux rest []
  | c :: rest, acc => splitLinesAux rest (c :: acc)

/-- Model of Python str.splitlines(). -/
def pySplitLines (s : String) : List String :=
  (splitLinesAux s.data []).map (fun cs => ⟨cs⟩)

/-- Check that the second list is an initial segment of the first. -/
def listStartsWith : List Char → List Char → Bool
  | _, [] => true
  | [], _ :: _ => false
  | c :: cs, p :: ps => c = p && listStartsWith cs ps

/-- Model of Python str.startswith. -/
def pyStartsWith (s p : String) : Bool := listStartsWith s.data p.data

/-- Runtime values flowing through the record-access layer.  Python
Decimal is modelled by its integer value, and date / datetime / UUID
objects by opaque numeric codes (their structure is irrelevant to the
verified properties; only identity and type tags matter). -/
inductive Value where
  | vNull
  | vStr (s : String)
  | vInt (n : Int)
  | vDec (n : Int)
  | vBool (b : Bool)
  | vDate (code : Nat)
  | vDatetime (code : Nat)
  | vUuid (code : Nat)
  deriving DecidableEq

/-- Python truthiness of a `Value` (None, empty string, zero and False
are falsy; date / datetime / UUID objects are always truthy). -/
def pyTruthy : Value → Bool
  | .vNull => false
  | .vStr s => s ≠ ""
  | .vInt n => n ≠ 0
  | .vDec n => n ≠ 0
  | .vBool b => b
  | .vDate _ => true
  | .vDatetime _ => true
  | .vUuid _ => true

/-- Model of Python str() on a `Value`; the ISO / UUID renderings are
abbreviated to the decimal renderings of the opaque codes. -/
def strOf : Value → String
  | .vNull => "None"
  | .vStr s => s
  | .vInt n => toString n
  | .vDec n => toString n
  | .vBool b => if b then "True" else "False"
  | .vDate n => toString n
  | .vDatetime n => toString n
  | .vUuid n => toString n

/-- Python dict with `Value` entries, as an insertion-ordered association
list with unique keys maintained by `dictSetV`. -/
abbrev PyDict := List (String × Value)

/-- Model of dict.get(k): first binding of the key, if any. -/
def dictGetV (d : PyDict) (k : String) : Option Value :=
  (d.find? (fun kv => kv.1 = k)).map (fun kv => kv.2)

/-- Model of d[k] = v: replace the value in place, or append a new binding. -/
def dictSetV : PyDict → String → Value → PyDict
  | [], k, v => [(k, v)]
  | (k0, v0) :: rest, k, v =>
      if k0 = k then (k0, v) :: rest else (k0, v0) :: dictSetV rest k v

/-- Keys of a dict, in order. -/
def dictKeys (d : PyDict) : List String := d.map (fun kv => kv.1)

/-- JSON-ish metadata values stored in AgentMemory.meta (the system
stores the integer entry_count plus string fields such as source). -/
inductive MVal where
  | mInt (n : Int)
  | mStr (s : String)
  deriving DecidableEq

/-- Metadata dict of a memory entry. -/
abbrev MetaMap := List (String × MVal)

/-- Model of metadata get. -/
def dictGet (d : MetaMap) (k : String) : Option MVal :=
  (d.find? (fun kv => kv.1 = k)).map (fun kv => kv.2)

/-- Model of metadata d[k] = v. -/
def dictSet : MetaMap → String → MVal → MetaMap
  | [], k, v => [(k, v)]
  | (k0, v0) :: rest, k, v =>
      if k0 = k then (k0, v) :: rest else (k0, v0) :: dictSet rest k v

/-- Model of dict.update: write every binding of the second dict into the
first, in order. -/
def dictUpdate (d other : MetaMap) : MetaMap :=
  other.foldl (fun acc kv => dictSet acc kv.1 kv.2) d

/-- Model of dict.setdefault(k, v). -/
def dictSetdefault (d : MetaMap) (k : String) (v : MVal) : MetaMap :=
  match dictGet d k with
  | some _ => d
  | none => d ++ [(k, v)]

/-- Row of the agent_memories table (db_models.AgentMemory).  The
embedding vector is a list of opaque integer coordinates (the float
coordinates of the real vector play no role in the verified claims);
`created_at` ordering is modelled by position in the session list. -/
structure AgentMemory where
  user_id : String
  topic : Option String
  content : String
  embedding : Option (List Int)
  meta : MetaMap
  deriving DecidableEq

/-- Cap on in-place merges of one memory entry
(memory_service._MAX_MERGE_UPDATES). -/
def MAX_MERGE_UPDATES : Int := 4

/-- Section marker while parsing a two-section memory summary. -/
inductive MemSection where
  | facts
  | followups
  deriving DecidableEq

/-- Worker for memory_service._parse_memory_sections: walk the lines,
tracking the current section, collecting bullet values and discarding
NO_MEMORY sentinels. -/
def parseSectionsAux : List String → Option MemSection → List String → List String →
    List String × List String
  | [], _, facts, fus => (facts, fus)
  | raw :: rest, sec, facts, fus =>
      let line := pyStrip raw
      if line = "" then parseSectionsAux rest sec facts fus
      else if pyStartsWith (pyLower line) "user facts" then
        parseSectionsAux rest (some .facts) facts fus
      else if pyStartsWith (pyLower line) "follow-ups" then
        parseSectionsAux rest (some .followups) facts fus
      else if pyStartsWith line "-" then
        let value := pyStrip ⟨line.data.drop 1⟩
        if pyUpper value = "NO_MEMORY" then parseSectionsAux rest sec facts fus
        else
          match sec with
          | some .facts => parseSectionsAux rest sec (facts ++ [value]) fus
          | some .followups => parseSectionsAux rest sec facts (fus ++ [value])
          | none => parseSectionsAux rest sec facts fus
      else parseSectionsAux rest sec facts fus

/-- Model of memory_service._parse_memory_sections. -/
def parseMemorySections (content : String) : List String × List String :=
  parseSectionsAux (pySplitLines content) none [] []

/-- Model of memory_service._format_memory_content: render fact and
follow-up lists back into the fixed two-section text. -/
def formatMemoryContent (facts followups : List String) : String :=
  let lines :=
    ["User Facts:"]
      ++ (if facts = [] then ["- NO_MEMORY"] else facts.map (fun item => "- " ++ item))
      ++ ["", "Follow-ups:"]
      ++ (if followups = [] then ["- NO_MEMORY"] else followups.map (fun item => "- " ++ item))
  String.intercalate "\n" lines

/-- Model of memory_service._merge_unique: append each new nonempty item
not already present, reporting whether anything was added. -/
def mergeUnique (existing : List String) : List String → List String × Bool
  | [] => (existing, false)
  | item :: rest =>
      if item ≠ "" ∧ item ∉ existing then
        ((mergeUnique (existing ++ [item]) rest).1, true)
      else mergeUnique existing rest

/-- Entry count read from a metadata dict, defaulting to 1
(int((meta or \x7b\x7d).get("entry_count", 1)); the system only ever
stores integer entry counts). -/
def entryCountOf (m : MetaMap) : Int :=
  match dictGet m "entry_count" with
  | some (.mInt n) => n
  | _ => 1

/-- Selection predicate of _maybe_merge_with_latest: same user and topic
(SQL NULL comparison on topic coincides with Option equality here since
the filter compares with the incoming topic, using IS NULL when the
incoming topic is None). -/
def matchKey (u : String) (t : Option String) (m : AgentMemory) : Bool :=
  m.user_id = u ∧ m.topic = t

/-- Replace the first element satisfying the predicate. -/
def replaceFirst {α : Type} (p : α → Bool) (e : α) : List α → List α
  | [] => []
  | x :: xs => if p x then e :: xs else x :: replaceFirst p e xs

/-- In-place update applied to the latest entry by the changed branch of
_maybe_merge_with_latest: combined two-section content, metadata merged
with the entry count bumped, and the supplied embedding written when
it is a non-empty vector. -/
def mergedEntry (latest : AgentMemory) (content : String) (metadata : MetaMap)
    (embedding : Option (List Int)) : AgentMemory :=
  let entry_count := entryCountOf latest.meta
  let latestParsed := parseMemorySections latest.content
  let newParsed := parseMemorySections content
  { latest with
      content := formatMemoryContent (mergeUnique latestParsed.1 newParsed.1).1
        (mergeUnique latestParsed.2 newParsed.2).1
      meta := dictSet (dictUpdate latest.meta metadata) "entry_count" (.mInt (entry_count + 1))
      embedding :=
        match embedding with
        | some v => if v = [] then latest.embedding else some v
        | none => latest.embedding }

/-- Model of memory_service._maybe_merge_with_latest.  The session is a
list of rows in created_at order, so the most recent matching entry is
the last match; an in-place mutation plus commit is replacement of that
row.  Returns the (possibly updated) entry plus the new session state,
or none when no entry exists or the latest one is capped. -/
def maybeMergeWithLatest (db : List AgentMemory) (user_id : String) (topic : Option String)
    (content : String) (metadata : MetaMap) (embedding : Option (List Int)) :
    Option (AgentMemory × List AgentMemory) :=
  match db.reverse.find? (matchKey user_id topic) with
  | none => none
  | some latest =>
      if MAX_MERGE_UPDATES ≤ entryCountOf latest.meta then none
      else
        let latestParsed := parseMemorySections latest.content
        let newParsed := parseMemorySections content
        let mergedFacts := mergeUnique latestParsed.1 newParsed.1
        let mergedFus := mergeUnique latestParsed.2 newParsed.2
        if mergedFacts.2 = false ∧ mergedFus.2 = false then
          some (latest, db)
        else
          let updated := mergedEntry latest content metadata embedding
          some (updated, (replaceFirst (matchKey user_id topic) updated db.reverse).reverse)

/-- Model of memory_service._clean_metadata. -/
def cleanMetadata (m : Option MetaMap) : MetaMap := m.getD []

/-- Model of memory_service.generate_embedding, with the OpenAI
embedding collaborator as the `embed` parameter: blank text embeds to
the empty vector without calling the collaborator. -/
def generateEmbedding (embed : String → List Int) (text : String) : List Int :=
  if pyStrip text = "" then [] else embed text

/-- Model of memory_service.store_memory: embed the incoming content
(unless a vector was supplied), default the entry count, try to merge
with the latest entry for the user and topic, and otherwise insert a
fresh row. -/
def storeMemory (embed : String → List Int) (db : List AgentMemory) (user_id : String)
    (content : String) (topic : Option String) (metadata : Option MetaMap)
    (embedding : Option (List Int)) : AgentMemory × List AgentMemory :=
  let vector :=
    match embedding with
    | some e => e
    | none => generateEmbedding embed content
  let cleaned := dictSetdefault (cleanMetadata metadata) "entry_count" (.mInt 1)
  match maybeMergeWithLatest db user_id topic content cleaned (some vector) with
  | some r => r
  | none =>
      let memory : AgentMemory :=
        { user_id := user_id
          topic := topic
          content := content
          embedding := if vector = [] then none else some vector
          meta := cleaned }
      (memory, db ++ [memory])

/-- Insert into a list sorted by an integer key, keeping earlier elements
first among equal keys. -/
def insertByKey {α : Type} (f : α → Int) (x : α) : List α → List α
  | [] => [x]
  | y :: ys => if f x < f y then x :: y :: ys else y :: insertByKey f x ys

/-- Sort a list ascending by an integer key (models an ORDER BY). -/
def orderByKey {α : Type} (f : α → Int) (l : List α) : List α :=
  l.foldr (insertByKey f) []

/-- Model of memory_service.fetch_relevant_memories.  The embedding
collaborator and the SQL cosine-distance operator are parameters; the
distance only determines the order of the survivors, which the verified
claim does not depend on. -/
def fetchRelevantMemories (embed : String → List Int)
    (cosineDistance : Option (List Int) → List Int → Int)
    (db : List AgentMemory) (user_id : String) (query : String) (limit : Nat) :
    List AgentMemory :=
  if user_id = "" ∨ pyStrip query = "" then []
  else
    let queryEmbedding := generateEmbedding embed query
    if queryEmbedding = [] then []
    else
      (orderByKey (fun m => cosineDistance m.embedding queryEmbedding)
          (db.filter (fun m => m.user_id = user_id ∧ m.embedding.isSome))).take limit

/-- Column types appearing in db_models.py (SQLAlchemy types collapsed to
the tags _coerce_column_value dispatches on; everything it does not
special-case behaves like textCol and passes through). -/
inductive ColType where
  | uuidCol
  | textCol
  | numericCol
  | dateCol
  | datetimeCol
  | boolCol
  | intCol
  | arrayCol
  | jsonbCol
  deriving DecidableEq

/-- Column metadata of a registered model (name, type, nullability,
Python-side default, server-side default, primary-key flag). -/
structure Column where
  name : String
  type : ColType
  nullable : Bool
  hasDefault : Bool
  hasServerDefault : Bool
  primaryKey : Bool
  deriving DecidableEq

/-- Build a column; every column of this schema has no Python-side
default (the onupdate hooks are not defaults). -/
def mkCol (name : String) (ty : ColType) (nullable serverDefault pk : Bool) : Column :=
  ⟨name, ty, nullable, false, serverDefault, pk⟩

/-- Registered model: class name plus column list, in declaration order. -/
structure TableModel where
  clsName : String
  columns : List Column
  deriving DecidableEq

/-- Columns of db_models.User. -/
def userModel : TableModel :=
  ⟨"User",
    [mkCol "id" .uuidCol false false true,
     mkCol "email" .textCol false false false,
     mkCol "full_name" .textCol true false false,
     mkCol "phone" .textCol true false false,
     mkCol "created_at" .datetimeCol true true false,
     mkCol "updated_at" .datetimeCol true true false]⟩

/-- Columns of db_models.IncomeSource. -/
def incomeSourceModel : TableModel :=
  ⟨"IncomeSource",
    [mkCol "id" .uuidCol false true true,
     mkCol "user_id" .uuidCol false false false,
     mkCol "source_name" .textCol false false false,
     mkCol "source_type" .textCol false false false,
     mkCol "amount" .numericCol false false false,
     mkCol "frequency" .textCol false false false,
     mkCol "created_at" .datetimeCol true true false]⟩

/-- Columns of db_models.Client. -/
def clientModel : TableModel :=
  ⟨"Client",
    [mkCol "id" .uuidCol false true true,
     mkCol "user_id" .uuidCol false false false,
     mkCol "name" .textCol false false false,
     mkCol "email" .textCol true false false,
     mkCol "phone" .textCol true false false,
     mkCol "gst_number" .textCol true false false,
     mkCol "notes" .textCol true false false,
     mkCol "created_at" .datetimeCol true true false,
     mkCol "updated_at" .datetimeCol true true false]⟩

/-- Columns of db_models.Transaction. -/
def transactionModel : TableModel :=
  ⟨"Transaction",
    [mkCol "id" .uuidCol false true true,
     mkCol "user_id" .uuidCol false false false,
     mkCol "client_id" .uuidCol true false false,
     mkCol "type" .textCol false false false,
     mkCol "amount" .numericCol false false false,
     mkCol "currency" .textCol false true false,
     mkCol "category" .textCol true false false,
     mkCol "subcategory" .textCol true false false,
     mkCol "description" .textCol true false false,
     mkCol "date" .dateCol false false false,
     mkCol "scheduled_for" .dateCol true false false,
     mkCol "is_recurring" .boolCol true true false,
     mkCol "recurrence_rule" .textCol true false false,
     mkCol "gst_eligible" .boolCol true true false,
     mkCol "gst_rate" .numericCol true false false,
     mkCol "ledger_status" .textCol true true false,
     mkCol "requires_follow_up" .boolCol true true false,
     mkCol "follow_up_reason" .textCol true false false,
     mkCol "has_receipt" .boolCol true true false,
     mkCol "tags" .arrayCol true false false,
     mkCol "notes" .textCol true false false,
     mkCol "source" .textCol true false false,
     mkCol "created_at" .datetimeCol true true false,
     mkCol "updated_at" .datetimeCol true true false]⟩

/-- Columns of db_models.Invoice. -/
def invoiceModel : TableModel :=
  ⟨"Invoice",
    [mkCol "id" .uuidCol false true true,
     mkCol "user_id" .uuidCol false false false,
     mkCol "client_id" .uuidCol true false false,
     mkCol "number" .textCol true false false,
     mkCol "description" .textCol true false false,
     mkCol "issue_date" .dateCol true false false,
     mkCol "due_date" .dateCol true false false,
     mkCol "amount" .numericCol false false false,
     mkCol "currency" .textCol false true false,
     mkCol "status" .textCol false true false,
     mkCol "expected_payment_date" .dateCol true false false,
     mkCol "actual_payment_date" .dateCol true false false,
     mkCol "reminder_count" .intCol false true false,
     mkCol "income_transaction_id" .uuidCol true false false,
     mkCol "created_at" .datetimeCol true true false,
     mkCol "updated_at" .datetimeCol true true false]⟩

/-- Columns of db_models.ComplianceTask. -/
def complianceTaskModel : TableModel :=
  ⟨"ComplianceTask",
    [mkCol "id" .uuidCol false true true,
     mkCol "user_id" .uuidCol false false false,
     mkCol "transaction_id" .uuidCol true false false,
     mkCol "task_type" .textCol true false false,
     mkCol "title" .textCol true false false,
     mkCol "due_date" .dateCol true false false,
     mkCol "status" .textCol false true false,
     mkCol "notes" .textCol true false false,
     mkCol "created_at" .datetimeCol true true false,
     mkCol "updated_at" .datetimeCol true true false]⟩

/-- Columns of db_models.Goal. -/
def goalModel : TableModel :=
  ⟨"Goal",
    [mkCol "id" .uuidCol false true true,
     mkCol "user_id" .uuidCol false false false,
     mkCol "title" .textCol false false false,
     mkCol "description" .textCol true false false,
     mkCol "category" .textCol true false false,
     mkCol "status" .textCol false true false,
     mkCol "priority" .textCol false true false,
     mkCol "target_amount" .numericCol false false false,
     mkCol "current_amount" .numericCol false true false,
     mkCol "deadline" .dateCol true false false,
     mkCol "monthly_contribution" .numericCol false true false,
     mkCol "required_monthly" .numericCol false true false,
     mkCol "icon_key" .textCol true false false,
     mkCol "tags" .arrayCol true false false,
     mkCol "notes" .textCol true false false,
     mkCol "created_at" .datetimeCol true true false,
     mkCol "updated_at" .datetimeCol true true false]⟩

/-- Columns of db_models.PulseHistory. -/
def pulseHistoryModel : TableModel :=
  ⟨"PulseHistory",
    [mkCol "id" .uuidCol false true true,
     mkCol "user_id" .uuidCol false false false,
     mkCol "score" .intCol false false false,
     mkCol "trend" .textCol false false false,
     mkCol "volatility" .numericCol false false false,
     mkCol "savings_rate" .numericCol false false false,
     mkCol "calculated_at" .datetimeCol true true false]⟩

/-- Columns of db_models.ChatMessage. -/
def chatMessageModel : TableModel :=
  ⟨"ChatMessage",
    [mkCol "id" .uuidCol false true true,
     mkCol "user_id" .uuidCol false false false,
     mkCol "role" .textCol false false false,
     mkCol "content" .textCol false false false,
     mkCol "audio_url" .textCol true false false,
     mkCol "created_at" .datetimeCol true true false]⟩

/-- Columns of db_models.TaxRecord. -/
def taxRecordModel : TableModel :=
  ⟨"TaxRecord",
    [mkCol "id" .uuidCol false true true,
     mkCol "user_id" .uuidCol false false false,
     mkCol "financial_year" .textCol false false false,
     mkCol "quarter" .textCol false false false,
     mkCol "estimated_tax" .numericCol false false false,
     mkCol "paid_tax" .numericCol false true false,
     mkCol "created_at" .datetimeCol true true false,
     mkCol "updated_at" .datetimeCol true true false]⟩

/-- Columns of db_models.WhatsAppNudge. -/
def whatsAppNudgeModel : TableModel :=
  ⟨"WhatsAppNudge",
    [mkCol "id" .uuidCol false true true,
     mkCol "user_id" .uuidCol false false false,
     mkCol "message" .textCol false false false,
     mkCol "sent_at" .datetimeCol true true false,
     mkCol "status" .textCol false true false]⟩

/-- Model of langgraph_router._MODEL_TABLES, in declaration order. -/
def MODEL_TABLES : List (String × TableModel) :=
  [("users", userModel),
   ("transactions", transactionModel),
   ("goals", goalModel),
   ("income_sources", incomeSourceModel),
   ("clients", clientModel),
   ("invoices", invoiceModel),
   ("compliance_tasks", complianceTaskModel),
   ("pulse_history", pulseHistoryModel),
   ("chat_messages", chatMessageModel),
   ("tax_records", taxRecordModel),
   ("whatsapp_nudges", whatsAppNudgeModel)]

/-- Skip set of _build_allowed_fields and _infer_required_fields. -/
def SKIP_FIELDS : List String :=
  ["id", "user_id", "created_at", "updated_at", "created_on", "updated_on"]

/-- Model of langgraph_router._build_allowed_fields. -/
def buildAllowedFields (m : TableModel) : List String :=
  (m.columns.filter (fun c => decide (c.name ∉ SKIP_FIELDS))).map (fun c => c.name)

/-- Model of langgraph_router._infer_required_fields. -/
def inferRequiredFields (m : TableModel) : List String :=
  (m.columns.filter (fun c =>
      decide (c.name ∉ SKIP_FIELDS ∧ ¬ c.nullable = true ∧ ¬ c.hasDefault = true ∧
        ¬ c.hasServerDefault = true ∧ c.type ≠ ColType.boolCol))).map (fun c => c.name)

/-- Model of langgraph_router._primary_key_column (total variant; every
registered model has a primary key, so the startup failure path is
unreachable for this schema). -/
def primaryKeyColumn (m : TableModel) : Option Column :=
  m.columns.find? (fun c => c.primaryKey)

/-- Lookup of the name-to-column dict built per table. -/
def columnsOf (m : TableModel) (k : String) : Option Column :=
  m.columns.find? (fun c => c.name = k)

/-- Membership in the name-to-column dict of a model. -/
def hasColumn (m : TableModel) (k : String) : Bool :=
  (columnsOf m k).isSome

/-- Per-table metadata entry of _build_writable_meta. -/
structure TableMeta where
  key : String
  model : TableModel
  allowed_fields : List String
  required_fields : List String
  primary_key : Column
  deriving DecidableEq

/-- Lookup in a string-keyed association list (a Python dict .get). -/
def lookupStr {α : Type} (l : List (String × α)) (k : String) : Option α :=
  (l.find? (fun p => p.1 = k)).map (fun p => p.2)

/-- Model of langgraph_router._build_writable_meta: every registered
model except User. -/
def buildWritableMeta : List (String × TableMeta) :=
  MODEL_TABLES.filterMap (fun p =>
    if p.2.clsName = "User" then none
    else (primaryKeyColumn p.2).map (fun pk =>
      (p.1, ⟨p.1, p.2, buildAllowedFields p.2, inferRequiredFields p.2, pk⟩)))

/-- Model of langgraph_router._WRITABLE_TABLES. -/
def WRITABLE_TABLES : List (String × TableMeta) := buildWritableMeta

/-- Stdlib parsers used by _coerce_column_value (Decimal, date.fromisoformat,
datetime.fromisoformat, UUID), abstracted as partial parsing collaborators. -/
structure StdParse where
  parseDecimal : String → Option Int
  parseDate : String → Option Nat
  parseDatetime : String → Option Nat
  parseUuid : String → Option Nat

/-- Error text of a failed coercion (the stdlib exception detail is
abstracted away; the code only ever surfaces this string opaquely). -/
def coerceErr (c : Column) (v : Value) : String :=
  "Invalid value \x27" ++ strOf v ++ "\x27 for column \x27" ++ c.name ++ "\x27"

/-- Truth set of the boolean-string coercion in _coerce_column_value. -/
def boolTrueStrings : List String := ["true", "1", "yes", "y"]

/-- Model of langgraph_router._coerce_column_value. -/
def coerceColumnValue (P : StdParse) (c : Column) (v : Value) : Except String Value :=
  match v with
  | .vNull => .ok .vNull
  | _ =>
      match c.type with
      | .numericCol =>
          match v with
          | .vDec n => .ok (.vDec n)
          | .vInt n => .ok (.vDec n)
          | _ =>
              match P.parseDecimal (strOf v) with
              | some n => .ok (.vDec n)
              | none => .error (coerceErr c v)
      | .datetimeCol =>
          match v with
          | .vDatetime n => .ok (.vDatetime n)
          | _ =>
              match P.parseDatetime (strOf v) with
              | some n => .ok (.vDatetime n)
              | none => .error (coerceErr c v)
      | .dateCol =>
          match v with
          | .vDate n => .ok (.vDate n)
          | _ =>
              match P.parseDate (strOf v) with
              | some n => .ok (.vDate n)
              | none => .error (coerceErr c v)
      | .boolCol =>
          match v with
          | .vBool b => .ok (.vBool b)
          | .vStr s => .ok (.vBool (decide (pyLower (pyStrip s) ∈ boolTrueStrings)))
          | _ => .ok (.vBool (pyTruthy v))
      | .uuidCol =>
          match v with
          | .vUuid n => .ok (.vUuid n)
          | _ =>
              match P.parseUuid (strOf v) with
              | some n => .ok (.vUuid n)
              | none => .error (coerceErr c v)
      | _ => .ok v

/-- Body of the field loop of _prepare_record_kwargs: skip fields
outside the writable set, coerce kept values, collect per-field errors. -/
def prepStep (P : StdParse) (meta : TableMeta) (acc : PyDict × List String)
    (kv : String × Value) : PyDict × List String :=
  if kv.1 ∈ meta.allowed_fields then
    match columnsOf meta.model kv.1 with
    | some c =>
        match coerceColumnValue P c kv.2 with
        | .ok cv => (dictSetV acc.1 kv.1 cv, acc.2)
        | .error e => (acc.1, acc.2 ++ [e])
    | none => acc
  else acc

/-- Model of langgraph_router._prepare_record_kwargs: keep only allowed
fields, coerce each kept value collecting per-field errors, then stamp
the acting user id when requested. -/
def prepareRecordKwargs (P : StdParse) (meta : TableMeta) (data : PyDict)
    (includeUserId : Bool) (userId : Value) : PyDict × List String :=
  let base := data.foldl (prepStep P meta) ([], [])
  if includeUserId ∧ hasColumn meta.model "user_id" = true then
    (dictSetV base.1 "user_id" userId, base.2)
  else base

/-- Model of langgraph_router._ensure_required_fields: required fields
whose prepared value is missing, None, or the empty string. -/
def ensureRequiredFields (meta : TableMeta) (prepared : PyDict) : List String :=
  meta.required_fields.filter (fun f =>
    match dictGetV prepared f with
    | none => true
    | some .vNull => true
    | some (.vStr s) => s = ""
    | some _ => false)

/-- Check of `prepared.get(k) is None` (missing key or stored None). -/
def isNoneAt (d : PyDict) (k : String) : Bool :=
  match dictGetV d k with
  | none => true
  | some .vNull => true
  | some _ => false

/-- Check of `not prepared.get(k)` (missing key or falsy value). -/
def isFalsyAt (d : PyDict) (k : String) : Bool :=
  match dictGetV d k with
  | none => true
  | some v => ¬ pyTruthy v

/-- Write a default when the stored value is None or the key is absent. -/
def setIfNone (d : PyDict) (k : String) (v : Value) : PyDict :=
  if isNoneAt d k then dictSetV d k v else d

/-- Dict get filtered through Python truthiness (the left operand of
an `or` chain). -/
def truthyGet (d : PyDict) (k : String) : Option Value :=
  match dictGetV d k with
  | some v => if pyTruthy v then some v else none
  | none => none

/-- Synthesized goal title of _apply_table_defaults: target amount from
the incoming payload or the prepared map, Decimal values normalized to
their string rendering before the final truthiness test. -/
def goalsSynthTitle (prepared incoming : PyDict) : String :=
  let target : Option Value :=
    match truthyGet incoming "target_amount" with
    | some v => some v
    | none => dictGetV prepared "target_amount"
  match target with
  | none => "Savings goal"
  | some v =>
      let v2 : Value :=
        match v with
        | .vDec n => .vStr (toString n)
        | x => x
      if pyTruthy v2 then "Savings goal " ++ strOf v2 else "Savings goal"

/-- Goal title default of _apply_table_defaults: incoming title, else
incoming description, else a synthesized title. -/
def goalsDefaultTitle (prepared incoming : PyDict) : String :=
  let titleOr : Option Value :=
    match truthyGet incoming "title" with
    | some v => some v
    | none => dictGetV incoming "description"
  match titleOr with
  | some v => if pyTruthy v then strOf v else goalsSynthTitle prepared incoming
  | none => goalsSynthTitle prepared incoming

/-- Model of langgraph_router._apply_table_defaults. -/
def applyTableDefaults (tableKey : String) (prepared incoming : PyDict) : PyDict :=
  let p1 :=
    if tableKey = "goals" then
      let pa :=
        if isFalsyAt prepared "title" then
          dictSetV prepared "title" (.vStr (goalsDefaultTitle prepared incoming))
        else prepared
      let pb := setIfNone pa "status" (.vStr "active")
      let pc := setIfNone pb "priority" (.vStr "medium")
      let pd := setIfNone pc "current_amount" (.vDec 0)
      let pe := setIfNone pd "monthly_contribution" (.vDec 0)
      setIfNone pe "required_monthly" (.vDec 0)
    else prepared
  let p2 :=
    if tableKey = "transactions" then
      setIfNone (setIfNone p1 "currency" (.vStr "INR")) "ledger_status" (.vStr "unreconciled")
    else p1
  let p3 :=
    if tableKey = "invoices" then
      setIfNone (setIfNone p2 "currency" (.vStr "INR")) "status" (.vStr "draft")
    else p2
  if tableKey = "compliance_tasks" then setIfNone p3 "status" (.vStr "pending") else p3

/-- Field names _apply_table_defaults can introduce for a table key
(read off the source; used to state the over-posting claim). -/
def defaultFieldNames (tableKey : String) : List String :=
  (if tableKey = "goals" then
      ["title", "status", "priority", "current_amount", "monthly_contribution",
       "required_monthly"]
    else [])
  ++ (if tableKey = "transactions" then ["currency", "ledger_status"] else [])
  ++ (if tableKey = "invoices" then ["currency", "status"] else [])
  ++ (if tableKey = "compliance_tasks" then ["status"] else [])

/-- Persisted row: owning table key plus a column-name-to-value dict.
Server-side defaults and generated ids (filled on refresh) are outside
the verified claims and not modelled. -/
structure Row where
  table : String
  values : PyDict
  deriving DecidableEq

/-- Model of langgraph_router._serialize_value (ISO and UUID renderings
abbreviated to the decimal renderings of the opaque codes; Decimals
stay numeric as floats do). -/
def serializeValue : Value → Value
  | .vDatetime n => .vStr (toString n)
  | .vDate n => .vStr (toString n)
  | .vUuid n => .vStr (toString n)
  | v => v

/-- Model of langgraph_router._serialize_instance: every column of the
model, serialized. -/
def serializeInstance (m : TableModel) (r : Row) : PyDict :=
  m.columns.map (fun c => (c.name, serializeValue ((dictGetV r.values c.name).getD .vNull)))

/-- Descending created_at sort key of _query_model_records. -/
def createdAtKeyDesc (r : Row) : Int :=
  match dictGetV r.values "created_at" with
  | some (.vDatetime n) => -(n : Int)
  | _ => 0

/-- Model of langgraph_router._query_model_records: scope to the owner
(or to the user's own row for the User model), order by created_at
descending when the model has that column, and cap the row count. -/
def queryModelRecords (db : List Row) (tableKey : String) (m : TableModel) (user : Value)
    (limit : Nat) : List Row :=
  let scopedRows :=
    if hasColumn m "user_id" then
      db.filter (fun r => decide (r.table = tableKey ∧ dictGetV r.values "user_id" = some user))
    else if m.clsName = "User" then
      db.filter (fun r => decide (r.table = tableKey ∧ dictGetV r.values "id" = some user))
    else
      db.filter (fun r => decide (r.table = tableKey))
  let ordered :=
    if hasColumn m "created_at" then orderByKey createdAtKeyDesc scopedRows else scopedRows
  ordered.take limit

/-- Result of the generic read tool ({"error": ...} or {"table", "records"}). -/
inductive GetResult where
  | err (msg : String)
  | ok (table : String) (records : List PyDict)
  deriving DecidableEq

/-- Model of the Python repr of a list of strings (the f-string rendering
of list(dict.keys()) in the tool error messages). -/
def pyListReprKeys (keys : List String) : String :=
  "[" ++ String.intercalate ", " (keys.map (fun k => "\x27" ++ k ++ "\x27")) ++ "]"

/-- Error message of get_table_records for an unregistered table. -/
def notAccessibleMsg (table : String) : String :=
  "Table \x27" ++ table ++ "\x27 is not accessible. Allowed tables: "
    ++ pyListReprKeys (MODEL_TABLES.map (fun p => p.1))

/-- Error message of create/update_table_record for a non-writable table. -/
def notWritableMsg (table : String) : String :=
  "Table \x27" ++ table ++ "\x27 is not writable. Allowed tables: "
    ++ pyListReprKeys (WRITABLE_TABLES.map (fun p => p.1))

/-- Model of the get_table_records tool. -/
def getTableRecords (db : List Row) (user : Value) (table : String) (limit : Int) :
    GetResult :=
  let tableKey := pyLower (pyStrip table)
  match lookupStr MODEL_TABLES tableKey with
  | none => .err (notAccessibleMsg table)
  | some m =>
      let recordLimit := (max 1 (min limit 50)).toNat
      .ok tableKey ((queryModelRecords db tableKey m user recordLimit).map (serializeInstance m))

/-- Result of the generic create/update tools. -/
inductive ToolResult where
  | errS (msg : String)
  | errL (msgs : List String)
  | okRec (table : String) (record : PyDict) (warnings : Option (List String))
  deriving DecidableEq

/-- Model of the create_table_record tool.  `data = none` models a
non-dict payload.  Returns the tool result plus the new session state. -/
def createTableRecord (P : StdParse) (db : List Row) (user : Value) (table : String)
    (data : Option PyDict) : ToolResult × List Row :=
  let tableKey := pyLower (pyStrip table)
  match lookupStr WRITABLE_TABLES tableKey with
  | none => (.errS (notWritableMsg table), db)
  | some meta =>
      match data with
      | none => (.errS "Data must be an object with field/value pairs.", db)
      | some d =>
          let pe := prepareRecordKwargs P meta d true user
          let prepared := applyTableDefaults tableKey pe.1 d
          let missing := ensureRequiredFields meta prepared
          let errors :=
            if missing = [] then pe.2
            else pe.2 ++ ["Missing required fields: " ++ pyListReprKeys missing]
          if errors = [] then
            let record : Row := ⟨tableKey, prepared⟩
            (.okRec tableKey (serializeInstance meta.model record) none, db ++ [record])
          else (.errL errors, db)

/-- Model of langgraph_router._fetch_user_record: coerce the id to the
primary-key type (an unparsable id raises, modelled as Except.error),
then take the first row matching the key and, when the model has an
ownership column, the acting user. -/
def fetchUserRecord (P : StdParse) (db : List Row) (meta : TableMeta) (user : Value)
    (recordId : Value) : Except String (Option Row) :=
  match coerceColumnValue P meta.primary_key recordId with
  | .error e => .error ("Invalid record_id: " ++ e)
  | .ok pkValue =>
      .ok ((db.filter (fun r => decide (r.table = meta.key ∧
              dictGetV r.values meta.primary_key.name = some pkValue ∧
              (hasColumn meta.model "user_id" = true →
                dictGetV r.values "user_id" = some user)))).head?)

/-- Model of the update_table_record tool.  `updates = none` models a
non-dict payload; Except.error models an exception escaping the tool
body (caught later at the loop boundary). -/
def updateTableRecord (P : StdParse) (db : List Row) (user : Value) (table : String)
    (recordId : Value) (updates : Option PyDict) : Except String (ToolResult × List Row) :=
  let tableKey := pyLower (pyStrip table)
  match lookupStr WRITABLE_TABLES tableKey with
  | none => .ok (.errS (notWritableMsg table), db)
  | some meta =>
      match updates with
      | none => .ok (.errS "Updates must be an object with field/value pairs.", db)
      | some upd =>
          match fetchUserRecord P db meta user recordId with
          | .error e => .error e
          | .ok none => .ok (.errS "Record not found or access denied.", db)
          | .ok (some record) =>
              let pe := prepareRecordKwargs P meta upd false user
              if pe.1 = [] ∧ pe.2 = [] then
                .ok (.errS "No valid fields provided for update.", db)
              else
                let newRow : Row :=
                  { record with
                      values := pe.1.foldl (fun vs kv => dictSetV vs kv.1 kv.2) record.values }
                .ok (.okRec tableKey (serializeInstance meta.model newRow)
                      (if pe.2 = [] then none else some pe.2),
                    replaceFirst (fun r => decide (r = record)) newRow db)

/-- Tool-call request produced by the model (name, correlation id, args;
either may be missing in the raw call dict). -/
structure ToolCallReq where
  name : Option String
  id : Option String
  args : PyDict
  deriving DecidableEq

/-- Model response: final text plus the requested tool calls (empty when
the model answered without tools). -/
structure ModelResponse where
  content : String
  tool_calls : List ToolCallReq
  deriving DecidableEq

/-- Serialized tool output of _dump_tool_output: a success payload or a
structured error object. -/
inductive ToolPayload where
  | success (data : String)
  | errObj (msg : String)
  deriving DecidableEq

/-- Message of the conversation sequence. -/
inductive Msg where
  | system (content : String)
  | human (content : String)
  | ai (content : String) (tool_calls : List ToolCallReq)
  | toolMsg (content : ToolPayload) (name : String) (tool_call_id : String)
  deriving DecidableEq

/-- Python `opt or default` on an optional string (an empty string is
falsy and also replaced). -/
def pyOrStr (o : Option String) (d : String) : String :=
  match o with
  | none => d
  | some s => if s = "" then d else s

/-- Python f-string rendering of an optional string (None prints as such). -/
def pyFormatOptStr (o : Option String) : String := o.getD "None"

/-- Registered tool surface: name to executable body; a body returns its
serialized payload or the message of the exception it raised. -/
abbrev Tools := String → Option (PyDict → Except String String)

/-- Model of one tool dispatch in _llm_node: unknown names become an
error payload, exceptions are caught into an error payload, and exactly
one tool message carrying the correlation id is produced. -/
def runToolCall (tools : Tools) (call : ToolCallReq) : Msg :=
  let payload : ToolPayload :=
    match tools (pyOrStr call.name "") with
    | none => .errObj ("Tool \x27" ++ pyFormatOptStr call.name ++ "\x27 is not available.")
    | some t =>
        match t call.args with
        | .ok out => .success out
        | .error e => .errObj e
  .toolMsg payload (pyOrStr call.name "unknown") (pyOrStr call.id "")

/-- Fuel-indexed model of the while loop of _llm_node.  The source loop
has no round cap; `none` means the fuel ran out while the model was
still requesting tools, so no fuel bound makes the loop return. -/
def llmNodeAux (model : List Msg → ModelResponse) (tools : Tools) :
    Nat → List Msg → ModelResponse → Option (List Msg)
  | fuel, messages, response =>
      let messages1 := messages ++ [Msg.ai response.content response.tool_calls]
      match response.tool_calls with
      | [] => some messages1
      | _ :: _ =>
          match fuel with
          | 0 => none
          | Nat.succ fuel2 =>
              let messages2 := messages1 ++ response.tool_calls.map (runToolCall tools)
              llmNodeAux model tools fuel2 messages2 (model messages2)

/-- Model of _llm_node: first model invocation, then the tool loop. -/
def llmNode (model : List Msg → ModelResponse) (tools : Tools) (fuel : Nat)
    (messages : List Msg) : Option (List Msg) :=
  llmNodeAux model tools fuel messages (model messages)

/-- Model stub that answers every invocation with one tool-call request. -/
def alwaysToolModel : List Msg → ModelResponse :=
  fun _ => ⟨"", [⟨some "get_active_goals", some "call_1", []⟩]⟩

/-- Correlation id carried by a tool message, if the message is one. -/
def toolCallIdOf : Msg → Option String
  | .toolMsg _ _ i => some i
  | _ => none

/-- Recognizer of tool-result messages. -/
def isToolMsg : Msg → Bool
  | .toolMsg _ _ _ => true
  | _ => false

/-- Embedding stub used by concrete instantiations: the length of the text. -/
def embedLen : String → List Int := fun s => [(s.length : Int)]

/-- Distance stub used by concrete instantiations. -/
def zeroDist : Option (List Int) → List Int → Int := fun _ _ => 0

/-- Parser bundle used by concrete instantiations (never parses; typed
values such as vDate pass coercion without it). -/
def noParse : StdParse := ⟨fun _ => none, fun _ => none, fun _ => none, fun _ => none⟩

/-- Concrete memory entry with one fact and entry_count 1. -/
def memEntry1 : AgentMemory :=
  ⟨"u", some "conversation", "User Facts:\n- Name: Rohan\n\nFollow-ups:\n- NO_MEMORY",
    some [43], [("entry_count", .mInt 1)]⟩

/-- Concrete memory entry at the merge cap. -/
def memEntry4 : AgentMemory :=
  ⟨"u", some "conversation", "User Facts:\n- Name: Rohan\n\nFollow-ups:\n- NO_MEMORY",
    some [43], [("entry_count", .mInt 4)]⟩

/-- Concrete incoming summary with one new fact. -/
def newSummary : String :=
  "User Facts:\n- Prefers conservative investing\n\nFollow-ups:\n- NO_MEMORY"

/-- Concrete metadata map as produced by _persist_conversation_memory. -/
def chatMeta : MetaMap := [("source", .mStr "chat")]

/-- Tool surface with no registered tools (every lookup misses). -/
def noTools : Tools := fun _ => none

/-- Model stub that always answers with text and no tool calls. -/
def doneModel : List Msg → ModelResponse := fun _ => ⟨"done", []⟩

/-- Concrete tool call request. -/
def callA : ToolCallReq := ⟨some "get_active_goals", some "call_a", []⟩

/-- Second concrete tool call request. -/
def callB : ToolCallReq := ⟨some "get_recent_transactions", some "call_b", []⟩

/-- Concrete tool call request with an unknown tool name. -/
def callBogus : ToolCallReq := ⟨some "bogus", some "9", []⟩

/-- Model response carrying two sequential tool calls. -/
def respTwoCalls : ModelResponse := ⟨"", [callA, callB]⟩

/-- Registry entry of the goals table (the value _build_writable_meta
produces for the goals key). -/
def goalsMeta : TableMeta :=
  ⟨"goals", goalModel, buildAllowedFields goalModel, inferRequiredFields goalModel,
    mkCol "id" .uuidCol false true true⟩

/-- Concrete goals row owned by user 9. -/
def rowOtherGoal : Row :=
  ⟨"goals", [("id", .vUuid 1), ("user_id", .vUuid 9), ("title", .vStr "secret")]⟩

/-- Concrete create payload including a field outside the writable set. -/
def txData : PyDict :=
  [("type", .vStr "expense"), ("amount", .vInt 500), ("date", .vDate 20240301),
   ("evil", .vStr "x")]

/-- Row that creating txData persists for user 7. -/
def txRow : Row :=
  ⟨"transactions",
    [("type", .vStr "expense"), ("amount", .vDec 500), ("date", .vDate 20240301),
     ("user_id", .vUuid 7), ("currency", .vStr "INR"),
     ("ledger_status", .vStr "unreconciled")]⟩

theorem mergeUnique_cons_pos (ex : List String) (item : String) (rest : List String)
    (h : item ≠ "" ∧ item ∉ ex) :
    mergeUnique ex (item :: rest) = ((mergeUnique (ex ++ [item]) rest).1, true) := by
  simp only [mergeUnique, if_pos h]

theorem mergeUnique_cons_neg (ex : List String) (item : String) (rest : List String)
    (h : ¬ (item ≠ "" ∧ item ∉ ex)) :
    mergeUnique ex (item :: rest) = mergeUnique ex rest := by
  simp only [mergeUnique, if_neg h]

theorem mergeUnique_eq_append :
    ∀ (l ex : List String), ∃ t, (mergeUnique ex l).1 = ex ++ t ∧ t.Nodup ∧
      ∀ x ∈ t, x ∈ l ∧ x ≠ "" ∧ x ∉ ex := by
  intro l
  induction l with
  | nil =>
      intro ex
      exact ⟨[], by simp [mergeUnique], List.nodup_nil, by simp⟩
  | cons item rest ih =>
      intro ex
      by_cases h : item ≠ "" ∧ item ∉ ex
      · obtain ⟨t, ht, hnd, hp⟩ := ih (ex ++ [item])
        refine ⟨item :: t, ?_, ?_, ?_⟩
        · rw [mergeUnique_cons_pos ex item rest h]
          simpa using ht
        · exact List.nodup_cons.mpr ⟨fun hmem => (hp item hmem).2.2 (by simp), hnd⟩
        · intro x hx
          rcases List.mem_cons.mp hx with rfl | hx2
          · exact ⟨List.mem_cons_self _ _, h.1, h.2⟩
          · obtain ⟨hr, hne, hnex⟩ := hp x hx2
            exact ⟨List.mem_cons_of_mem _ hr, hne,
              fun hc => hnex (List.mem_append_left _ hc)⟩
      · obtain ⟨t, ht, hnd, hp⟩ := ih ex
        refine ⟨t, ?_, hnd, ?_⟩
        · rw [mergeUnique_cons_neg ex item rest h]
          exact ht
        · intro x hx
          obtain ⟨hr, hne, hnex⟩ := hp x hx
          exact ⟨List.mem_cons_of_mem _ hr, hne, hnex⟩

theorem mem_mergeUnique_left (l ex : List String) (y : String) (hy : y ∈ ex) :
    y ∈ (mergeUnique ex l).1 := by
  obtain ⟨t, ht, -, -⟩ := mergeUnique_eq_append l ex
  rw [ht]
  exact List.mem_append_left _ hy

theorem mem_mergeUnique_right :
    ∀ (l ex : List String) (x : String), x ∈ l → x ≠ "" → x ∈ (mergeUnique ex l).1 := by
  intro l
  induction l with
  | nil => intro ex x hx; simp at hx
  | cons item rest ih =>
      intro ex x hx hne
      by_cases h : item ≠ "" ∧ item ∉ ex
      · rw [mergeUnique_cons_pos ex item rest h]
        rcases List.mem_cons.mp hx with rfl | hx2
        · exact mem_mergeUnique_left rest (ex ++ [x]) x (by simp)
        · exact ih (ex ++ [item]) x hx2 hne
      · rw [mergeUnique_cons_neg ex item rest h]
        rcases List.mem_cons.mp hx with rfl | hx2
        · push_neg at h
          exact mem_mergeUnique_left rest ex x (h hne)
        · exact ih ex x hx2 hne

theorem mergeUnique_no_change :
    ∀ (l ex : List String), (∀ x ∈ l, x = "" ∨ x ∈ ex) → mergeUnique ex l = (ex, false) := by
  intro l
  induction l with
  | nil => intro ex _; rfl
  | cons item rest ih =>
      intro ex hall
      have h : ¬ (item ≠ "" ∧ item ∉ ex) := by
        rcases hall item (List.mem_cons_self _ _) with h1 | h1
        · exact fun hc => hc.1 h1
        · exact fun hc => hc.2 h1
      rw [mergeUnique_cons_neg ex item rest h]
      exact ih ex (fun x hx => hall x (List.mem_cons_of_mem _ hx))

theorem count_mergeUnique_one (ex l : List String) (f : String)
    (hnex : f ∉ ex) (hl : f ∈ l) (hne : f ≠ "") :
    List.count f (mergeUnique ex l).1 = 1 := by
  obtain ⟨t, ht, hnd, -⟩ := mergeUnique_eq_append l ex
  have hmem : f ∈ (mergeUnique ex l).1 := mem_mergeUnique_right l ex f hl hne
  rw [ht] at hmem ⊢
  have hft : f ∈ t := by
    rcases List.mem_append.mp hmem with h | h
    · exact absurd h hnex
    · exact h
  rw [List.count_append, List.count_eq_zero_of_not_mem hnex,
    List.count_eq_one_of_mem hnd hft]

/-- Merging content that adds nothing new returns the latest entry and
leaves the session untouched. -/
theorem maybeMerge_no_change (db : List AgentMemory) (u : String) (t : Option String)
    (content : String) (cm : MetaMap) (eo : Option (List Int)) (e : AgentMemory)
    (hfind : db.reverse.find? (matchKey u t) = some e)
    (hlt : entryCountOf e.meta < MAX_MERGE_UPDATES)
    (hf : ∀ x ∈ (parseMemorySections content).1, x ∈ (parseMemorySections e.content).1)
    (hfu : ∀ x ∈ (parseMemorySections content).2, x ∈ (parseMemorySections e.content).2) :
    maybeMergeWithLatest db u t content cm eo = some (e, db) := by
  have hcap : ¬ MAX_MERGE_UPDATES ≤ entryCountOf e.meta := not_le.mpr hlt
  have h1 : mergeUnique (parseMemorySections e.content).1 (parseMemorySections content).1
      = ((parseMemorySections e.content).1, false) :=
    mergeUnique_no_change _ _ (fun x hx => Or.inr (hf x hx))
  have h2 : mergeUnique (parseMemorySections e.content).2 (parseMemorySections content).2
      = ((parseMemorySections e.content).2, false) :=
    mergeUnique_no_change _ _ (fun x hx => Or.inr (hfu x hx))
  simp [maybeMergeWithLatest, hfind, hcap, h1, h2]

/-- C3: merge of a memory summary is idempotent.  First conjunct: when
the latest entry for the user/topic is below the cap and every incoming
fact and follow-up line is already present by exact text match,
store_memory returns the existing entry and the store is unchanged (no
write, no content/embedding/metadata/entry_count change).  Second
conjunct: a merge only ever appends after the existing lines, so
insertion order of existing lines is preserved.  Third conjunct: a fact
absent from the entry occurs exactly once after being merged, and
merging the same lines a second time changes nothing. -/
theorem C3_merge_idempotent :
    (∀ (embed : String → List Int) (db : List AgentMemory) (u : String) (t : Option String)
        (content : String) (md : Option MetaMap) (emb : Option (List Int)) (e : AgentMemory),
        db.reverse.find? (matchKey u t) = some e →
        entryCountOf e.meta < MAX_MERGE_UPDATES →
        (∀ x ∈ (parseMemorySections content).1, x ∈ (parseMemorySections e.content).1) →
        (∀ x ∈ (parseMemorySections content).2, x ∈ (parseMemorySections e.content).2) →
        storeMemory embed db u content t md emb = (e, db))
    ∧ (∀ ex l : List String, ∃ tl, (mergeUnique ex l).1 = ex ++ tl)
    ∧ (∀ (ex l : List String) (f : String), f ∉ ex → f ∈ l → f ≠ "" →
        List.count f (mergeUnique ex l).1 = 1 ∧
        mergeUnique (mergeUnique ex l).1 l = ((mergeUnique ex l).1, false)) := by
  refine ⟨?_, ?_, ?_⟩
  · intro embed db u t content md emb e hfind hlt hf hfu
    have key : ∀ (cm : MetaMap) (eo : Option (List Int)),
        maybeMergeWithLatest db u t content cm eo = some (e, db) :=
      fun cm eo => maybeMerge_no_change db u t content cm eo e hfind hlt hf hfu
    simp [storeMemory, key]
  · intro ex l
    obtain ⟨t, ht, -, -⟩ := mergeUnique_eq_append l ex
    exact ⟨t, ht⟩
  · intro ex l f hnex hl hne
    refine ⟨count_mergeUnique_one ex l f hnex hl hne, ?_⟩
    exact mergeUnique_no_change l (mergeUnique ex l).1
      (fun x hx => by
        by_cases hx0 : x = ""
        · exact Or.inl hx0
        · exact Or.inr (mem_mergeUnique_right l ex x hx hx0))

/-- Witness for C3: storing the already-known fact a second time returns
the untouched entry and store. -/
theorem C3_witness :
    storeMemory embedLen [memEntry1] "u" "User Facts:\n- Name: Rohan"
      (some "conversation") (some chatMeta) none = (memEntry1, [memEntry1]) :=
  C3_merge_idempotent.1 embedLen [memEntry1] "u" (some "conversation")
    "User Facts:\n- Name: Rohan" (some chatMeta) none memEntry1
    (by decide) (by decide) (by decide) (by decide)

theorem dictGet_dictSet (d : MetaMap) (k : String) (v : MVal) :
    dictGet (dictSet d k v) k = some v := by
  induction d with
  | nil => simp [dictSet, dictGet]
  | cons kv rest ih =>
      by_cases h : kv.1 = k
      · simp [dictSet, h, dictGet]
      · simpa [dictSet, h, dictGet] using ih

theorem dictGet_append_of_none (d : MetaMap) (k : String) (v : MVal)
    (h : dictGet d k = none) : dictGet (d ++ [(k, v)]) k = some v := by
  unfold dictGet at h ⊢
  have h2 : d.find? (fun p => p.1 = k) = none := by
    cases hf : d.find? (fun p => p.1 = k) with
    | none => rfl
    | some x => rw [hf] at h; simp at h
  rw [List.find?_append, h2]
  simp [List.find?]

theorem entryCountOf_dictSet (m : MetaMap) (n : Int) :
    entryCountOf (dictSet m "entry_count" (.mInt n)) = n := by
  simp [entryCountOf, dictGet_dictSet]

theorem entryCountOf_setdefault (md : MetaMap) (h : dictGet md "entry_count" = none) :
    entryCountOf (dictSetdefault md "entry_count" (.mInt 1)) = 1 := by
  simp [dictSetdefault, h, entryCountOf, dictGet_append_of_none md _ _ h]

theorem entryCountOf_mergedEntry (latest : AgentMemory) (content : String)
    (metadata : MetaMap) (embedding : Option (List Int)) :
    entryCountOf (mergedEntry latest content metadata embedding).meta
      = entryCountOf latest.meta + 1 := by
  simp [mergedEntry, entryCountOf_dictSet]

theorem find?_replaceFirst_decomp {α : Type} (p : α → Bool) (e' : α) :
    ∀ (l : List α) (e : α), l.find? p = some e →
      ∃ l1 l2, l = l1 ++ e :: l2 ∧ replaceFirst p e' l = l1 ++ e' :: l2 := by
  intro l
  induction l with
  | nil => intro e h; simp at h
  | cons x xs ih =>
      intro e h
      by_cases hp : p x
      · rw [List.find?_cons_of_pos _ hp] at h
        have hx : x = e := by injection h
        subst hx
        exact ⟨[], xs, by simp, by simp [replaceFirst, hp]⟩
      · rw [List.find?_cons_of_neg _ hp] at h
        obtain ⟨l1, l2, hl, hr⟩ := ih e h
        exact ⟨x :: l1, l2, by simp [hl], by simp [replaceFirst, hp, hr]⟩

theorem maybeMerge_none_of_capped (db : List AgentMemory) (u : String) (t : Option String)
    (content : String) (cm : MetaMap) (eo : Option (List Int)) (e : AgentMemory)
    (hfind : db.reverse.find? (matchKey u t) = some e)
    (hcap : MAX_MERGE_UPDATES ≤ entryCountOf e.meta) :
    maybeMergeWithLatest db u t content cm eo = none := by
  simp [maybeMergeWithLatest, hfind, hcap]

theorem maybeMerge_changed (db : List AgentMemory) (u : String) (t : Option String)
    (content : String) (cm : MetaMap) (eo : Option (List Int)) (e : AgentMemory)
    (hfind : db.reverse.find? (matchKey u t) = some e)
    (hlt : entryCountOf e.meta < MAX_MERGE_UPDATES)
    (hch : ¬ ((mergeUnique (parseMemorySections e.content).1
          (parseMemorySections content).1).2 = false
        ∧ (mergeUnique (parseMemorySections e.content).2
          (parseMemorySections content).2).2 = false)) :
    maybeMergeWithLatest db u t content cm eo
      = some (mergedEntry e content cm eo,
          (replaceFirst (matchKey u t) (mergedEntry e content cm eo) db.reverse).reverse) := by
  have hcap : ¬ MAX_MERGE_UPDATES ≤ entryCountOf e.meta := not_le.mpr hlt
  simp [maybeMergeWithLatest, hfind, hcap, hch]

theorem maybeMerge_cases (db : List AgentMemory) (u : String) (t : Option String)
    (content : String) (cm : MetaMap) (eo : Option (List Int)) :
    maybeMergeWithLatest db u t content cm eo = none
    ∨ (∃ e, maybeMergeWithLatest db u t content cm eo = some (e, db))
    ∨ (∃ l1 e0 l2, db = l1 ++ e0 :: l2 ∧
        maybeMergeWithLatest db u t content cm eo
          = some (mergedEntry e0 content cm eo, l1 ++ mergedEntry e0 content cm eo :: l2) ∧
        entryCountOf e0.meta < MAX_MERGE_UPDATES) := by
  cases hfind : db.reverse.find? (matchKey u t) with
  | none => left; simp [maybeMergeWithLatest, hfind]
  | some latest =>
      by_cases hcap : MAX_MERGE_UPDATES ≤ entryCountOf latest.meta
      · left
        exact maybeMerge_none_of_capped db u t content cm eo latest hfind hcap
      · by_cases hch :
            (mergeUnique (parseMemorySections latest.content).1
              (parseMemorySections content).1).2 = false
            ∧ (mergeUnique (parseMemorySections latest.content).2
              (parseMemorySections content).2).2 = false
        · right; left
          exact ⟨latest, by simp [maybeMergeWithLatest, hfind, hcap, hch]⟩
        · right; right
          obtain ⟨r1, r2, hrev, hrepl⟩ :=
            find?_replaceFirst_decomp (matchKey u t) (mergedEntry latest content cm eo)
              db.reverse latest hfind
          refine ⟨r2.reverse, latest, r1.reverse, ?_, ?_, not_le.mp hcap⟩
          · have hdb : db = db.reverse.reverse := (List.reverse_reverse db).symm
            rw [hdb, hrev]
            simp
          · rw [maybeMerge_changed db u t content cm eo latest hfind (not_le.mp hcap) hch,
              hrepl]
            simp

theorem storeMemory_cases (embed : String → List Int) (db : List AgentMemory) (u : String)
    (content : String) (t : Option String) (md : Option MetaMap) (emb : Option (List Int)) :
    ((storeMemory embed db u content t md emb).2 = db)
    ∨ ((storeMemory embed db u content t md emb).2
        = db ++ [(storeMemory embed db u content t md emb).1])
    ∨ (∃ l1 e0 l2, db = l1 ++ e0 :: l2 ∧
        (storeMemory embed db u content t md emb).2
          = l1 ++ (storeMemory embed db u content t md emb).1 :: l2 ∧
        entryCountOf e0.meta < MAX_MERGE_UPDATES ∧
        entryCountOf (storeMemory embed db u content t md emb).1.meta
          = entryCountOf e0.meta + 1) := by
  rcases maybeMerge_cases db u t content
      (dictSetdefault (cleanMetadata md) "entry_count" (.mInt 1))
      (some (match emb with | some e => e | none => generateEmbedding embed content)) with
    h | ⟨e, h⟩ | ⟨l1, e0, l2, hdb, h, hlt⟩
  · right; left
    simp [storeMemory, h]
  · left
    simp [storeMemory, h]
  · right; right
    refine ⟨l1, e0, l2, hdb, ?_, hlt, ?_⟩
    · simp [storeMemory, h]
    · simp [storeMemory, h, entryCountOf_mergedEntry]

/-- C4: entry_count is monotone and capped.  First conjunct: when the
latest entry for the user/topic has reached the cap, store_memory
appends a fresh entry with entry_count 1 for that user/topic instead of
mutating the capped one (for metadata without an entry_count key, as the
chat caller passes).  Second conjunct: a successful merge increments the
stored entry count by exactly 1.  Third conjunct: one store_memory call
either leaves the session unchanged, appends one fresh entry, or
replaces exactly one existing entry whose count was below the cap with
an entry whose count is one higher — so counts never decrease and a
count bounded by the cap stays bounded by the cap. -/
theorem C4_entry_count_monotone :
    (∀ (embed : String → List Int) (db : List AgentMemory) (u : String) (t : Option String)
        (content : String) (md : MetaMap) (emb : Option (List Int)) (e : AgentMemory),
        db.reverse.find? (matchKey u t) = some e →
        MAX_MERGE_UPDATES ≤ entryCountOf e.meta →
        dictGet md "entry_count" = none →
        (storeMemory embed db u content t (some md) emb).2
            = db ++ [(storeMemory embed db u content t (some md) emb).1] ∧
        entryCountOf (storeMemory embed db u content t (some md) emb).1.meta = 1 ∧
        (storeMemory embed db u content t (some md) emb).1.user_id = u ∧
        (storeMemory embed db u content t (some md) emb).1.topic = t)
    ∧ (∀ (embed : String → List Int) (db : List AgentMemory) (u : String) (t : Option String)
        (content : String) (md : Option MetaMap) (emb : Option (List Int)) (e : AgentMemory),
        db.reverse.find? (matchKey u t) = some e →
        entryCountOf e.meta < MAX_MERGE_UPDATES →
        ((mergeUnique (parseMemorySections e.content).1
            (parseMemorySections content).1).2 = true ∨
         (mergeUnique (parseMemorySections e.content).2
            (parseMemorySections content).2).2 = true) →
        entryCountOf (storeMemory embed db u content t md emb).1.meta
          = entryCountOf e.meta + 1)
    ∧ (∀ (embed : String → List Int) (db : List AgentMemory) (u : String)
        (content : String) (t : Option String) (md : Option MetaMap)
        (emb : Option (List Int)),
        ((storeMemory embed db u content t md emb).2 = db)
        ∨ ((storeMemory embed db u content t md emb).2
            = db ++ [(storeMemory embed db u content t md emb).1])
        ∨ (∃ l1 e0 l2, db = l1 ++ e0 :: l2 ∧
            (storeMemory embed db u content t md emb).2
              = l1 ++ (storeMemory embed db u content t md emb).1 :: l2 ∧
            entryCountOf e0.meta < MAX_MERGE_UPDATES ∧
            entryCountOf (storeMemory embed db u content t md emb).1.meta
              = entryCountOf e0.meta + 1)) := by
  refine ⟨?_, ?_, storeMemory_cases⟩
  · intro embed db u t content md emb e hfind hcap hmd
    have hnone : maybeMergeWithLatest db u t content
        (dictSetdefault md "entry_count" (.mInt 1))
        (some (match emb with | some e2 => e2 | none => generateEmbedding embed content))
        = none :=
      maybeMerge_none_of_capped db u t content _ _ e hfind hcap
    refine ⟨?_, ?_, ?_, ?_⟩
    · simp [storeMemory, cleanMetadata, hnone]
    · simp [storeMemory, cleanMetadata, hnone, entryCountOf_setdefault md hmd]
    · simp [storeMemory, cleanMetadata, hnone]
    · simp [storeMemory, cleanMetadata, hnone]
  · intro embed db u t content md emb e hfind hlt hch
    have hch2 : ¬ ((mergeUnique (parseMemorySections e.content).1
          (parseMemorySections content).1).2 = false
        ∧ (mergeUnique (parseMemorySections e.content).2
          (parseMemorySections content).2).2 = false) := by
      intro hc
      rcases hch with h1 | h1
      · rw [hc.1] at h1; simp at h1
      · rw [hc.2] at h1; simp at h1
    have hsome := maybeMerge_changed db u t content
      (dictSetdefault (cleanMetadata md) "entry_count" (.mInt 1))
      (some (match emb with | some e2 => e2 | none => generateEmbedding embed content))
      e hfind hlt hch2
    simp [storeMemory, hsome, entryCountOf_mergedEntry]

/-- Witness for C4: storing a new fact over a capped entry appends a
fresh entry for the same user and topic with entry_count 1. -/
theorem C4_witness :
    (storeMemory embedLen [memEntry4] "u" newSummary (some "conversation")
        (some chatMeta) none).2
      = [memEntry4] ++ [(storeMemory embedLen [memEntry4] "u" newSummary
          (some "conversation") (some chatMeta) none).1] ∧
    entryCountOf (storeMemory embedLen [memEntry4] "u" newSummary (some "conversation")
        (some chatMeta) none).1.meta = 1 :=
  have h := C4_entry_count_monotone.1 embedLen [memEntry4] "u" (some "conversation")
    newSummary chatMeta none memEntry4 (by decide) (by decide) (by decide)
  ⟨h.1, h.2.1⟩

theorem mergedEntry_embedding (latest : AgentMemory) (content : String)
    (metadata : MetaMap) (v : List Int) (hv : v ≠ []) :
    (mergedEntry latest content metadata (some v)).embedding = some v := by
  simp [mergedEntry, hv]

theorem mergedEntry_content (latest : AgentMemory) (content : String)
    (metadata : MetaMap) (embedding : Option (List Int)) :
    (mergedEntry latest content metadata embedding).content
      = formatMemoryContent
          (mergeUnique (parseMemorySections latest.content).1
            (parseMemorySections content).1).1
          (mergeUnique (parseMemorySections latest.content).2
            (parseMemorySections content).2).1 := rfl

/-- C5 (amended): whenever a merge adds at least one new fact or
follow-up line, the persisted entry does store the combined two-section
text as its content, but its embedding is the embedding of the incoming
summary content passed to store_memory, not the embedding of the
combined text. -/
theorem C5_embedding_incoming :
    ∀ (embed : String → List Int) (db : List AgentMemory) (u : String) (t : Option String)
      (content : String) (md : Option MetaMap) (e : AgentMemory),
      db.reverse.find? (matchKey u t) = some e →
      entryCountOf e.meta < MAX_MERGE_UPDATES →
      ((mergeUnique (parseMemorySections e.content).1
          (parseMemorySections content).1).2 = true ∨
       (mergeUnique (parseMemorySections e.content).2
          (parseMemorySections content).2).2 = true) →
      generateEmbedding embed content ≠ [] →
      (storeMemory embed db u content t md none).1.embedding
        = some (generateEmbedding embed content) ∧
      (storeMemory embed db u content t md none).1.content
        = formatMemoryContent
            (mergeUnique (parseMemorySections e.content).1
              (parseMemorySections content).1).1
            (mergeUnique (parseMemorySections e.content).2
              (parseMemorySections content).2).1 := by
  intro embed db u t content md e hfind hlt hch hne
  have hch2 : ¬ ((mergeUnique (parseMemorySections e.content).1
        (parseMemorySections content).1).2 = false
      ∧ (mergeUnique (parseMemorySections e.content).2
        (parseMemorySections content).2).2 = false) := by
    intro hc
    rcases hch with h1 | h1
    · rw [hc.1] at h1; simp at h1
    · rw [hc.2] at h1; simp at h1
  have hsome := maybeMerge_changed db u t content
    (dictSetdefault (cleanMetadata md) "entry_count" (.mInt 1))
    (some (generateEmbedding embed content)) e hfind hlt hch2
  constructor
  · simp [storeMemory, hsome, mergedEntry_embedding e content _ _ hne]
  · simp [storeMemory, hsome, mergedEntry_content]

/-- Counterexample for C5: merging a genuinely new fact stores a
combined content text whose embedding differs from the embedding the
code persists (the code embeds the incoming summary, not the combined
text, here witnessed by a length-based embedding stub). -/
theorem C5_counterexample :
    (storeMemory embedLen [memEntry1] "u" newSummary (some "conversation")
        (some chatMeta) none).1.embedding
      ≠ some (embedLen ((storeMemory embedLen [memEntry1] "u" newSummary
          (some "conversation") (some chatMeta) none).1.content)) := by
  decide

/-- Witness for C5 (amended): the concrete merge persists the embedding
of the incoming summary while storing the combined content. -/
theorem C5_witness :
    (storeMemory embedLen [memEntry1] "u" newSummary (some "conversation")
        (some chatMeta) none).1.embedding
      = some (generateEmbedding embedLen newSummary) ∧
    (storeMemory embedLen [memEntry1] "u" newSummary (some "conversation")
        (some chatMeta) none).1.content
      = formatMemoryContent
          (mergeUnique (parseMemorySections memEntry1.content).1
            (parseMemorySections newSummary).1).1
          (mergeUnique (parseMemorySections memEntry1.content).2
            (parseMemorySections newSummary).2).1 :=
  C5_embedding_incoming embedLen [memEntry1] "u" (some "conversation") newSummary
    (some chatMeta) memEntry1 (by decide) (by decide) (by decide) (by decide)

theorem mem_insertByKey {α : Type} (f : α → Int) (x a : α) :
    ∀ l, a ∈ insertByKey f x l → a = x ∨ a ∈ l := by
  intro l
  induction l with
  | nil =>
      intro h
      simp [insertByKey] at h
      exact Or.inl h
  | cons y ys ih =>
      intro h
      simp only [insertByKey] at h
      by_cases hc : f x < f y
      · rw [if_pos hc] at h
        rcases List.mem_cons.mp h with rfl | h2
        · exact Or.inl rfl
        · exact Or.inr h2
      · rw [if_neg hc] at h
        rcases List.mem_cons.mp h with rfl | h2
        · exact Or.inr (List.mem_cons_self _ _)
        · rcases ih h2 with h3 | h3
          · exact Or.inl h3
          · exact Or.inr (List.mem_cons_of_mem _ h3)

theorem mem_orderByKey {α : Type} (f : α → Int) (a : α) :
    ∀ l, a ∈ orderByKey f l → a ∈ l := by
  intro l
  induction l with
  | nil => intro h; simp [orderByKey] at h
  | cons y ys ih =>
      intro h
      rcases mem_insertByKey f y a (orderByKey f ys) h with rfl | h2
      · exact List.mem_cons_self _ _
      · exact List.mem_cons_of_mem _ (ih h2)

/-- C10: memory retrieval is user-scoped and total on degenerate input.
First conjunct: a falsy user id or a blank query returns the empty list
for every embedding collaborator, distance operator and store — so
neither is consulted.  Second conjunct: every returned entry belongs to
the requesting user and has a non-null embedding. -/
theorem C10_fetch_user_scoped :
    (∀ (embed : String → List Int) (dist : Option (List Int) → List Int → Int)
        (db : List AgentMemory) (user_id query : String) (limit : Nat),
        (user_id = "" ∨ pyStrip query = "") →
        fetchRelevantMemories embed dist db user_id query limit = [])
    ∧ (∀ (embed : String → List Int) (dist : Option (List Int) → List Int → Int)
        (db : List AgentMemory) (user_id query : String) (limit : Nat)
        (m : AgentMemory),
        m ∈ fetchRelevantMemories embed dist db user_id query limit →
        m.user_id = user_id ∧ m.embedding ≠ none) := by
  constructor
  · intro embed dist db user_id query limit h
    unfold fetchRelevantMemories
    rw [if_pos h]
  · intro embed dist db user_id query limit m hm
    unfold fetchRelevantMemories at hm
    by_cases h1 : user_id = "" ∨ pyStrip query = ""
    · rw [if_pos h1] at hm; simp at hm
    · rw [if_neg h1] at hm
      by_cases h2 : generateEmbedding embed query = []
      · simp only [h2, if_pos] at hm
        simp at hm
      · rw [if_neg h2] at hm
        have hmem := List.mem_of_mem_take hm
        have hmem2 := mem_orderByKey _ m _ hmem
        have hf := List.mem_filter.mp hmem2
        have hp := of_decide_eq_true hf.2
        exact ⟨hp.1, Option.ne_none_iff_isSome.mpr hp.2⟩

/-- Witness for C10: a concrete store with one matching entry returns it,
and the scoping theorem applies to that member. -/
theorem C10_witness :
    memEntry1.user_id = "u" ∧ memEntry1.embedding ≠ none :=
  C10_fetch_user_scoped.2 embedLen zeroDist [memEntry1] "u" "hello savings" 3 memEntry1
    (by decide)

theorem llmNodeAux_none_of_always (model : List Msg → ModelResponse) (tools : Tools)
    (hmodel : ∀ ms, (model ms).tool_calls ≠ []) :
    ∀ (fuel : Nat) (messages : List Msg) (response : ModelResponse),
      response.tool_calls ≠ [] →
      llmNodeAux model tools fuel messages response = none := by
  intro fuel
  induction fuel with
  | zero =>
      intro messages response hr
      cases hc : response.tool_calls with
      | nil => exact absurd hc hr
      | cons a as => simp [llmNodeAux, hc]
  | succ n ih =>
      intro messages response hr
      cases hc : response.tool_calls with
      | nil => exact absurd hc hr
      | cons a as =>
          simp only [llmNodeAux, hc]
          exact ih _ _ (hmodel _)

/-- C6: the conversation loop of _llm_node has no round cap: against a
model stub that requests a tool call on every invocation, the while
loop never exits, so no finite number of rounds (no fuel bound) makes
it return a reply. -/
theorem C6_loop_never_returns :
    ∀ (tools : Tools) (fuel : Nat) (messages : List Msg),
      llmNode alwaysToolModel tools fuel messages = none := by
  intro tools fuel messages
  exact llmNodeAux_none_of_always alwaysToolModel tools
    (fun ms => by simp [alwaysToolModel]) fuel messages _ (by simp [alwaysToolModel])

theorem llmNodeAux_succ_step (model : List Msg → ModelResponse) (tools : Tools)
    (fuel : Nat) (messages : List Msg) (response : ModelResponse)
    (h : response.tool_calls ≠ []) :
    llmNodeAux model tools (fuel + 1) messages response
      = llmNodeAux model tools fuel
          ((messages ++ [Msg.ai response.content response.tool_calls])
            ++ response.tool_calls.map (runToolCall tools))
          (model ((messages ++ [Msg.ai response.content response.tool_calls])
            ++ response.tool_calls.map (runToolCall tools))) := by
  cases hc : response.tool_calls with
  | nil => exact absurd hc h
  | cons a as => simp [llmNodeAux, hc]

/-- C7: within one model response, the loop appends exactly one
tool-result message per requested call, in request order, each carrying
the request's correlation id, and the model is re-invoked only on the
sequence that already contains all those results. -/
theorem C7_tool_results_ordered :
    ∀ (model : List Msg → ModelResponse) (tools : Tools) (fuel : Nat)
      (messages : List Msg) (response : ModelResponse),
      response.tool_calls ≠ [] →
      (llmNodeAux model tools (fuel + 1) messages response
        = llmNodeAux model tools fuel
            ((messages ++ [Msg.ai response.content response.tool_calls])
              ++ response.tool_calls.map (runToolCall tools))
            (model ((messages ++ [Msg.ai response.content response.tool_calls])
              ++ response.tool_calls.map (runToolCall tools)))) ∧
      (response.tool_calls.map (runToolCall tools)).length
        = response.tool_calls.length ∧
      (∀ mres ∈ response.tool_calls.map (runToolCall tools), isToolMsg mres = true) ∧
      ((response.tool_calls.map (runToolCall tools)).map toolCallIdOf
        = response.tool_calls.map (fun c => some (pyOrStr c.id ""))) := by
  intro model tools fuel messages response h
  refine ⟨llmNodeAux_succ_step model tools fuel messages response h,
    List.length_map _ _, ?_, ?_⟩
  · intro mres hm
    obtain ⟨c, -, rfl⟩ := List.mem_map.mp hm
    rfl
  · rw [List.map_map]
    rfl

/-- Witness for C7: a response with two tool calls steps to the model
re-invocation carrying both results, whose correlation ids are the two
call ids in order. -/
theorem C7_witness :
    (llmNodeAux doneModel noTools (0 + 1) [] respTwoCalls
      = llmNodeAux doneModel noTools 0
          (([] ++ [Msg.ai respTwoCalls.content respTwoCalls.tool_calls])
            ++ respTwoCalls.tool_calls.map (runToolCall noTools))
          (doneModel (([] ++ [Msg.ai respTwoCalls.content respTwoCalls.tool_calls])
            ++ respTwoCalls.tool_calls.map (runToolCall noTools)))) ∧
    ((respTwoCalls.tool_calls.map (runToolCall noTools)).map toolCallIdOf
      = respTwoCalls.tool_calls.map (fun c => some (pyOrStr c.id ""))) :=
  have h := C7_tool_results_ordered doneModel noTools 0 [] respTwoCalls (by decide)
  ⟨h.1, h.2.2.2⟩

/-- C9: a tool call can never abort the turn.  Every dispatch yields
exactly one tool message carrying the call's correlation id; an unknown
tool name yields the structured unavailability error; a known tool whose
body raises yields the structured error object with the exception text. -/
theorem C9_tool_failures_contained :
    ∀ (tools : Tools) (call : ToolCallReq),
      (∃ p, runToolCall tools call
          = Msg.toolMsg p (pyOrStr call.name "unknown") (pyOrStr call.id "")) ∧
      (tools (pyOrStr call.name "") = none →
        runToolCall tools call
          = Msg.toolMsg (.errObj ("Tool \x27" ++ pyFormatOptStr call.name
              ++ "\x27 is not available."))
              (pyOrStr call.name "unknown") (pyOrStr call.id "")) ∧
      (∀ tl e, tools (pyOrStr call.name "") = some tl → tl call.args = .error e →
        runToolCall tools call
          = Msg.toolMsg (.errObj e) (pyOrStr call.name "unknown") (pyOrStr call.id "")) := by
  intro tools call
  refine ⟨?_, ?_, ?_⟩
  · cases ht : tools (pyOrStr call.name "") with
    | none =>
        exact ⟨.errObj ("Tool \x27" ++ pyFormatOptStr call.name ++ "\x27 is not available."),
          by simp [runToolCall, ht]⟩
    | some tl =>
        cases hr : tl call.args with
        | ok out => exact ⟨.success out, by simp [runToolCall, ht, hr]⟩
        | error e => exact ⟨.errObj e, by simp [runToolCall, ht, hr]⟩
  · intro h
    simp [runToolCall, h]
  · intro tl e h1 h2
    simp [runToolCall, h1, h2]

/-- Witness for C9: dispatching an unknown tool name produces the
structured unavailability error message with the call's correlation id. -/
theorem C9_witness :
    runToolCall noTools callBogus
      = Msg.toolMsg (.errObj ("Tool \x27" ++ pyFormatOptStr callBogus.name
          ++ "\x27 is not available."))
          (pyOrStr callBogus.name "unknown") (pyOrStr callBogus.id "") :=
  (C9_tool_failures_contained noTools callBogus).2.1 rfl

/-- C1: ownership confidentiality of the generic update.  For a
registered writable table whose model has an ownership column, and a
coercible record id for which the store holds no row both matching that
id and owned by the acting user, the record fetch returns nothing and
update_table_record returns exactly the constant NotFound error with
the store unchanged — the same result whether the row is absent
entirely or present under another owner, exposing no field. -/
theorem C1_update_notfound :
    ∀ (P : StdParse) (db : List Row) (user : Value) (table : String) (recordId : Value)
      (upd : PyDict) (meta : TableMeta) (pkValue : Value),
      lookupStr WRITABLE_TABLES (pyLower (pyStrip table)) = some meta →
      hasColumn meta.model "user_id" = true →
      coerceColumnValue P meta.primary_key recordId = .ok pkValue →
      (∀ r ∈ db, r.table = meta.key →
        dictGetV r.values meta.primary_key.name = some pkValue →
        ¬ dictGetV r.values "user_id" = some user) →
      fetchUserRecord P db meta user recordId = .ok none ∧
      updateTableRecord P db user table recordId (some upd)
        = .ok (.errS "Record not found or access denied.", db) := by
  intro P db user table recordId upd meta pkValue hmeta huid hco hnone
  have hfil : db.filter (fun r => decide (r.table = meta.key ∧
      dictGetV r.values meta.primary_key.name = some pkValue ∧
      (hasColumn meta.model "user_id" = true →
        dictGetV r.values "user_id" = some user))) = [] := by
    rw [List.filter_eq_nil_iff]
    intro r hr hp
    have hp2 := of_decide_eq_true hp
    exact hnone r hr hp2.1 hp2.2.1 (hp2.2.2 huid)
  have hfetch : fetchUserRecord P db meta user recordId = .ok none := by
    unfold fetchUserRecord
    simp only [hco, hfil]
    rfl
  exact ⟨hfetch, by simp [updateTableRecord, hmeta, hfetch]⟩

/-- Witness for C1: updating a goal owned by another user yields the
NotFound error and mutates nothing. -/
theorem C1_witness :
    fetchUserRecord noParse [rowOtherGoal] goalsMeta (.vUuid 7) (.vUuid 1) = .ok none ∧
    updateTableRecord noParse [rowOtherGoal] (.vUuid 7) "goals" (.vUuid 1)
        (some [("title", .vStr "mine")])
      = .ok (.errS "Record not found or access denied.", [rowOtherGoal]) :=
  C1_update_notfound noParse [rowOtherGoal] (.vUuid 7) "goals" (.vUuid 1)
    [("title", .vStr "mine")] goalsMeta (.vUuid 1)
    (by decide) (by decide) rfl (by decide)

theorem keys_dictSetV :
    ∀ (d : PyDict) (k0 : String) (v : Value) (k : String),
      k ∈ dictKeys (dictSetV d k0 v) → k = k0 ∨ k ∈ dictKeys d := by
  intro d
  induction d with
  | nil =>
      intro k0 v k hk
      simp [dictSetV, dictKeys] at hk
      exact Or.inl hk
  | cons kv rest ih =>
      obtain ⟨k1, v1⟩ := kv
      intro k0 v k hk
      by_cases h : k1 = k0
      · simp only [dictSetV, if_pos h, dictKeys, List.map_cons] at hk
        rcases List.mem_cons.mp hk with h2 | h2
        · refine Or.inr ?_
          simp only [dictKeys, List.map_cons]
          exact h2 ▸ List.mem_cons_self _ _
        · refine Or.inr ?_
          simp only [dictKeys, List.map_cons]
          exact List.mem_cons_of_mem _ h2
      · simp only [dictSetV, if_neg h, dictKeys, List.map_cons] at hk
        rcases List.mem_cons.mp hk with h2 | h2
        · refine Or.inr ?_
          simp only [dictKeys, List.map_cons]
          exact h2 ▸ List.mem_cons_self _ _
        · rcases ih k0 v k h2 with h3 | h3
          · exact Or.inl h3
          · refine Or.inr ?_
            simp only [dictKeys, List.map_cons]
            exact List.mem_cons_of_mem _ h3

theorem keys_prepStep (P : StdParse) (meta : TableMeta) (acc : PyDict × List String)
    (kv : String × Value) :
    ∀ k ∈ dictKeys (prepStep P meta acc kv).1,
      k ∈ dictKeys acc.1 ∨ (k = kv.1 ∧ kv.1 ∈ meta.allowed_fields) := by
  intro k hk
  unfold prepStep at hk
  by_cases ha : kv.1 ∈ meta.allowed_fields
  · rw [if_pos ha] at hk
    cases hc : columnsOf meta.model kv.1 with
    | none => simp only [hc] at hk; exact Or.inl hk
    | some c =>
        simp only [hc] at hk
        cases hcv : coerceColumnValue P c kv.2 with
        | ok cv =>
            simp only [hcv] at hk
            rcases keys_dictSetV acc.1 kv.1 cv k hk with h | h
            · exact Or.inr ⟨h, ha⟩
            · exact Or.inl h
        | error e => simp only [hcv] at hk; exact Or.inl hk
  · rw [if_neg ha] at hk
    exact Or.inl hk

theorem keys_prepFold (P : StdParse) (meta : TableMeta) :
    ∀ (data : PyDict) (acc : PyDict × List String) (k : String),
      k ∈ dictKeys (data.foldl (prepStep P meta) acc).1 →
      k ∈ dictKeys acc.1 ∨ (k ∈ dictKeys data ∧ k ∈ meta.allowed_fields) := by
  intro data
  induction data with
  | nil => intro acc k hk; exact Or.inl hk
  | cons kv rest ih =>
      intro acc k hk
      rcases ih (prepStep P meta acc kv) k hk with h | h
      · rcases keys_prepStep P meta acc kv k h with h2 | h2
        · exact Or.inl h2
        · refine Or.inr ⟨?_, by rw [h2.1]; exact h2.2⟩
          simp only [dictKeys, List.map_cons]
          exact h2.1 ▸ List.mem_cons_self _ _
      · refine Or.inr ⟨?_, h.2⟩
        simp only [dictKeys, List.map_cons]
        exact List.mem_cons_of_mem _ h.1

theorem keys_prepare (P : StdParse) (meta : TableMeta) (data : PyDict)
    (includeUserId : Bool) (userId : Value) :
    ∀ k ∈ dictKeys (prepareRecordKwargs P meta data includeUserId userId).1,
      (k ∈ dictKeys data ∧ k ∈ meta.allowed_fields) ∨ k = "user_id" := by
  intro k hk
  unfold prepareRecordKwargs at hk
  by_cases hc : includeUserId = true ∧ hasColumn meta.model "user_id" = true
  · rw [if_pos hc] at hk
    rcases keys_dictSetV _ _ _ k hk with h | h
    · exact Or.inr h
    · rcases keys_prepFold P meta data ([], []) k h with h2 | h2
      · simp [dictKeys] at h2
      · exact Or.inl h2
  · rw [if_neg hc] at hk
    rcases keys_prepFold P meta data ([], []) k hk with h2 | h2
    · simp [dictKeys] at h2
    · exact Or.inl h2

theorem keys_setIfNone (d : PyDict) (k0 : String) (v : Value) :
    ∀ k ∈ dictKeys (setIfNone d k0 v), k ∈ dictKeys d ∨ k = k0 := by
  intro k hk
  unfold setIfNone at hk
  by_cases h : isNoneAt d k0 = true
  · rw [if_pos h] at hk
    rcases keys_dictSetV d k0 v k hk with h2 | h2
    · exact Or.inr h2
    · exact Or.inl h2
  · rw [if_neg h] at hk
    exact Or.inl hk

theorem keys_applyDefaults (tableKey : String) (p inc : PyDict) :
    ∀ k ∈ dictKeys (applyTableDefaults tableKey p inc),
      k ∈ dictKeys p ∨ k ∈ defaultFieldNames tableKey := by
  intro k hk
  unfold applyTableDefaults at hk
  by_cases hg : tableKey = "goals"
  · subst hg
    simp only [if_pos rfl, if_neg (by decide : ¬ ("goals" : String) = "transactions"),
      if_neg (by decide : ¬ ("goals" : String) = "invoices"),
      if_neg (by decide : ¬ ("goals" : String) = "compliance_tasks")] at hk
    have h5 := keys_setIfNone _ _ _ k hk
    rcases h5 with h5 | h5
    on_goal 2 => exact Or.inr (by simp [defaultFieldNames, h5])
    have h4 := keys_setIfNone _ _ _ k h5
    rcases h4 with h4 | h4
    on_goal 2 => exact Or.inr (by simp [defaultFieldNames, h4])
    have h3 := keys_setIfNone _ _ _ k h4
    rcases h3 with h3 | h3
    on_goal 2 => exact Or.inr (by simp [defaultFieldNames, h3])
    have h2 := keys_setIfNone _ _ _ k h3
    rcases h2 with h2 | h2
    on_goal 2 => exact Or.inr (by simp [defaultFieldNames, h2])
    have h1 := keys_setIfNone _ _ _ k h2
    rcases h1 with h1 | h1
    on_goal 2 => exact Or.inr (by simp [defaultFieldNames, h1])
    by_cases ht : isFalsyAt p "title" = true
    · rw [if_pos ht] at h1
      rcases keys_dictSetV p "title" _ k h1 with h0 | h0
      · exact Or.inr (by simp [defaultFieldNames, h0])
      · exact Or.inl h0
    · rw [if_neg ht] at h1
      exact Or.inl h1
  · by_cases htx : tableKey = "transactions"
    · subst htx
      simp only [if_neg hg, if_pos rfl,
        if_neg (by decide : ¬ ("transactions" : String) = "invoices"),
        if_neg (by decide : ¬ ("transactions" : String) = "compliance_tasks")] at hk
      have h2 := keys_setIfNone _ _ _ k hk
      rcases h2 with h2 | h2
      on_goal 2 => exact Or.inr (by simp [defaultFieldNames, h2])
      have h1 := keys_setIfNone _ _ _ k h2
      rcases h1 with h1 | h1
      · exact Or.inl h1
      · exact Or.inr (by simp [defaultFieldNames, h1])
    · by_cases hin : tableKey = "invoices"
      · subst hin
        simp only [if_neg hg, if_neg htx, if_pos rfl,
          if_neg (by decide : ¬ ("invoices" : String) = "compliance_tasks")] at hk
        have h2 := keys_setIfNone _ _ _ k hk
        rcases h2 with h2 | h2
        on_goal 2 => exact Or.inr (by simp [defaultFieldNames, h2])
        have h1 := keys_setIfNone _ _ _ k h2
        rcases h1 with h1 | h1
        · exact Or.inl h1
        · exact Or.inr (by simp [defaultFieldNames, h1])
      · by_cases hct : tableKey = "compliance_tasks"
        · subst hct
          simp only [if_neg hg, if_neg htx, if_neg hin, if_pos rfl] at hk
          rcases keys_setIfNone _ _ _ k hk with h1 | h1
          · exact Or.inl h1
          · exact Or.inr (by simp [defaultFieldNames, h1])
        · simp only [if_neg hg, if_neg htx, if_neg hin, if_neg hct] at hk
          exact Or.inl hk

theorem create_db_cases (P : StdParse) (db : List Row) (user : Value) (table : String)
    (dataOpt : Option PyDict) :
    (createTableRecord P db user table dataOpt).2 = db
    ∨ (∃ meta d, dataOpt = some d
        ∧ lookupStr WRITABLE_TABLES (pyLower (pyStrip table)) = some meta
        ∧ (createTableRecord P db user table dataOpt).2
          = db ++ [⟨pyLower (pyStrip table),
              applyTableDefaults (pyLower (pyStrip table))
                (prepareRecordKwargs P meta d true user).1 d⟩]) := by
  cases hmeta : lookupStr WRITABLE_TABLES (pyLower (pyStrip table)) with
  | none => left; simp [createTableRecord, hmeta]
  | some meta =>
      cases dataOpt with
      | none => left; simp [createTableRecord, hmeta]
      | some d =>
          by_cases herr : (if ensureRequiredFields meta
                (applyTableDefaults (pyLower (pyStrip table))
                  (prepareRecordKwargs P meta d true user).1 d) = [] then
              (prepareRecordKwargs P meta d true user).2
            else
              (prepareRecordKwargs P meta d true user).2
                ++ ["Missing required fields: " ++ pyListReprKeys (ensureRequiredFields meta
                      (applyTableDefaults (pyLower (pyStrip table))
                        (prepareRecordKwargs P meta d true user).1 d))]) = []
          · right
            refine ⟨meta, d, rfl, rfl, ?_⟩
            simp [createTableRecord, hmeta, herr]
          · left
            simp [createTableRecord, hmeta, herr]

/-- C2: over-posting protection of the generic create.  Every row the
create tool adds to the store belongs to a registered writable table,
and each of its field keys is either a supplied key that lies in the
table's writable (allowed) field set, the ownership field user_id, or
one of that table's default fields; supplied keys outside the allowed
set are never persisted. -/
theorem C2_create_overposting :
    ∀ (P : StdParse) (db : List Row) (user : Value) (table : String) (data : PyDict),
      ∀ r ∈ (createTableRecord P db user table (some data)).2,
        r ∈ db ∨
        (∃ meta, lookupStr WRITABLE_TABLES (pyLower (pyStrip table)) = some meta ∧
          r.table = pyLower (pyStrip table) ∧
          ∀ k ∈ dictKeys r.values,
            (k ∈ dictKeys data ∧ k ∈ meta.allowed_fields) ∨ k = "user_id" ∨
              k ∈ defaultFieldNames (pyLower (pyStrip table))) := by
  intro P db user table data r hr
  rcases create_db_cases P db user table (some data) with h | ⟨meta, d, hd, hmeta, h⟩
  · rw [h] at hr
    exact Or.inl hr
  · have hdd : d = data := by injection hd with h2; exact h2.symm
    subst hdd
    rw [h] at hr
    rcases List.mem_append.mp hr with h1 | h1
    · exact Or.inl h1
    · right
      have hrec := List.mem_singleton.mp h1
      subst hrec
      refine ⟨meta, hmeta, rfl, ?_⟩
      intro k hk
      rcases keys_applyDefaults (pyLower (pyStrip table))
          (prepareRecordKwargs P meta d true user).1 d k hk with h2 | h2
      · rcases keys_prepare P meta d true user k h2 with h3 | h3
        · exact Or.inl h3
        · exact Or.inr (Or.inl h3)
      · exact Or.inr (Or.inr h2)

/-- Witness for C2: creating a transaction with an extra unknown field
persists a row whose every key is a supplied allowed key, the ownership
field, or a transaction default. -/
theorem C2_witness :
    txRow ∈ ([] : List Row) ∨
    (∃ meta, lookupStr WRITABLE_TABLES (pyLower (pyStrip "transactions")) = some meta ∧
      txRow.table = pyLower (pyStrip "transactions") ∧
      ∀ k ∈ dictKeys txRow.values,
        (k ∈ dictKeys txData ∧ k ∈ meta.allowed_fields) ∨ k = "user_id" ∨
          k ∈ defaultFieldNames (pyLower (pyStrip "transactions"))) :=
  C2_create_overposting noParse [] (.vUuid 7) "transactions" txData txRow (by decide)

/-- Counterexample for C8: the generic read accepts the identity table
key (users is registered in _MODEL_TABLES and not excluded), returning
an ok result rather than an error naming the allowed tables. -/
theorem C8_counterexample :
    getTableRecords [] (.vUuid 7) "users" 10 = .ok "users" [] := by
  decide

/-- C8 (amended): get_table_records accepts exactly the registered
record tables including the identity/user table (users is among the
accepted keys), and a request for any key outside the registered set
returns an error whose message names all registered tables. -/
theorem C8_get_tables_amended :
    ((lookupStr MODEL_TABLES "users").isSome = true) ∧
    (∀ (db : List Row) (user : Value) (table : String) (limit : Int),
      lookupStr MODEL_TABLES (pyLower (pyStrip table)) = none →
      getTableRecords db user table limit
        = .err ("Table \x27" ++ table ++ "\x27 is not accessible. Allowed tables: "
            ++ pyListReprKeys (MODEL_TABLES.map (fun p => p.1)))) ∧
    (∀ (db : List Row) (user : Value) (table : String) (limit : Int) (m : TableModel),
      lookupStr MODEL_TABLES (pyLower (pyStrip table)) = some m →
      getTableRecords db user table limit
        = .ok (pyLower (pyStrip table))
            ((queryModelRecords db (pyLower (pyStrip table)) m user
              ((max 1 (min limit 50)).toNat)).map (serializeInstance m))) := by
  refine ⟨by decide, ?_, ?_⟩
  · intro db user table limit h
    simp [getTableRecords, h, notAccessibleMsg]
  · intro db user table limit m h
    simp [getTableRecords, h]

/-- Witness for C8 (amended): an unregistered key yields the error
naming every registered table, and the users key is read successfully. -/
theorem C8_witness :
    getTableRecords [] (.vUuid 7) "nope" 10
      = .err ("Table \x27" ++ "nope" ++ "\x27 is not accessible. Allowed tables: "
          ++ pyListReprKeys (MODEL_TABLES.map (fun p => p.1))) ∧
    getTableRecords [] (.vUuid 7) "users" 10
      = .ok (pyLower (pyStrip "users"))
          ((queryModelRecords [] (pyLower (pyStrip "users")) userModel (.vUuid 7)
            ((max 1 (min (10 : Int) 50)).toNat)).map (serializeInstance userModel)) :=
  ⟨C8_get_tables_amended.2.1 [] (.vUuid 7) "nope" 10 (by decide),
   C8_get_tables_amended.2.2 [] (.vUuid 7) "users" 10 userModel (by decide)⟩

end Taal
